import Mathlib

/-!
Verification development for the wasminspect WebAssembly VM.

Shallow embedding of:
- the stepping interpreter `wasminspect-core/src/interpreter/executor.rs`
  (`Executor::execute_inst`, `Executor::branch`, `Executor::int_op`,
  `eval_const_expr`);
- the store / linker `crates/vm/src/store.rs` (`Store::load_parity_module`,
  the import loading, `Store::load_mems`, `Store::load_tables`, ...).

Components of the repository that are referenced by those two files but whose
sources are not available (the interpreter stack `stack.rs`, the
`LinkableCollection` in `linker.rs`, `memory.rs`, `table.rs`, `module.rs`,
and the vm crate executor) are modelled from the specification; each such
definition carries a doc comment saying so.

Machine integers are embedded as `Int`/`Nat` with explicit two's-complement
normalisation where the source can wrap.  Rust panics are embedded as a
distinct `panicked` outcome, separate from returned errors.
-/

namespace Wasminspect

/-- Wasm value types, as in `parity_wasm::elements::ValueType`. -/
inductive ValueType where
  | i32
  | i64
  | f32
  | f64
deriving DecidableEq, Repr

/-- Runtime values (`value.rs`).  Floating-point payloads are represented by
their raw bit patterns: the interpreter only ever constructs them via
`f32::from_bits` / `f64::from_bits` from constant instructions and never
computes with them, so the bit pattern is a faithful representation. -/
inductive Value where
  | I32 (v : Int)
  | I64 (v : Int)
  | F32 (bits : Nat)
  | F64 (bits : Nat)
deriving DecidableEq, Repr

/-- A function signature: parameter types and an optional (single) result
type, as in `parity_wasm::elements::FunctionType` restricted to at most one
result, which is how the source uses it (`return_type()`). -/
structure FuncType where
  params : List ValueType
  ret : Option ValueType
deriving DecidableEq, Repr

/-- The instructions handled by `Executor::execute_inst`, plus `other name`
standing for every remaining `parity_wasm::elements::Instruction` variant
(the `_` arm of the source match); `name` carries the opcode's display
string used in the source's format strings.  Payloads the source ignores
(block types) are dropped. -/
inductive Instr where
  | unreachable
  | nop
  | block
  | loop
  | if_
  | else_
  | end_
  | br (depth : Nat)
  | brIf (depth : Nat)
  | call (funcIndex : Nat)
  | return_
  | getLocal (index : Nat)
  | setLocal (index : Nat)
  | getGlobal (index : Nat)
  | setGlobal (index : Nat)
  | i32Const (v : Int)
  | i64Const (v : Int)
  | f32Const (bits : Nat)
  | f64Const (bits : Nat)
  | i32Add
  | i32LtS
  | other (name : String)
deriving DecidableEq, Repr

/-- Two's-complement normalisation of an integer into the `i32` range; this
is the value produced by Rust's wrapping 32-bit addition (release-mode `+`
on `i32`). -/
def i32wrap (n : Int) : Int :=
  (n + 2 ^ 31) % 2 ^ 32 - 2 ^ 31

namespace Core

/-- Stack labels, from `Label` in the interpreter (`Label::Block`,
`Label::If`, `Label::new_loop(inst_index)`, `Label::Return`). -/
inductive Label where
  | block
  | if_
  | loop (start : Nat)
  | return_
deriving DecidableEq, Repr

/-- Program counter: function address `(module index, function index)` plus
instruction index. -/
structure ProgramCounter where
  funcAddr : Nat × Nat
  instIndex : Nat
deriving DecidableEq, Repr

/-- Advance the program counter to the next instruction
(`ProgramCounter::inc_inst_index`). -/
def ProgramCounter.inc_inst_index (pc : ProgramCounter) : ProgramCounter :=
  { pc with instIndex := pc.instIndex + 1 }

/-- Jump back to a loop's start index (`ProgramCounter::loop_jump`). -/
def ProgramCounter.loop_jump (pc : ProgramCounter) (l : Nat) : ProgramCounter :=
  { pc with instIndex := l }

/-- A call frame.  Modelled from the spec: `stack.rs` is not under `src/`;
per the data model a frame is `{ func_addr, locals, return_pc? }`, with
`return_pc = None` only for the outermost (entry) frame. -/
structure CallFrame where
  funcAddr : Nat × Nat
  locals : List Value
  retPc : Option ProgramCounter
deriving DecidableEq, Repr

/-- Module index of the frame's function (`CallFrame::module_index`), the
first component of its function address. -/
def CallFrame.module_index (f : CallFrame) : Nat :=
  f.funcAddr.1

/-- One entry of the unified runtime stack (`StackValue` in `stack.rs`):
a value, a label, or an activation (call frame). -/
inductive StackValue where
  | value (v : Value)
  | label (l : Label)
  | activation (f : CallFrame)
deriving DecidableEq, Repr

/-- The unified stack; the head of the list is the top of the stack. -/
abbrev Stack := List StackValue

def StackValue.isValue : StackValue → Bool
  | .value _ => true
  | _ => false

def StackValue.isActivation : StackValue → Bool
  | .activation _ => true
  | _ => false

/-- Modelled from the spec: `stack.rs` is not under `src/`.  `pushValue`
pushes a value entry on top. -/
def push_value (v : Value) (s : Stack) : Stack :=
  .value v :: s

/-- Modelled from the spec: `stack.rs` is not under `src/`.  `popValue` pops
the top entry; popping when the top entry is not a value is a panic
(`none`). -/
def pop_value : Stack → Option (Value × Stack)
  | .value v :: rest => some (v, rest)
  | _ => none

/-- Modelled from the spec: `stack.rs` is not under `src/`.  `pushLabel`
pushes a label entry on top. -/
def push_label (l : Label) (s : Stack) : Stack :=
  .label l :: s

/-- Modelled from the spec: `stack.rs` is not under `src/`.  `popLabel` pops
the top entry, which must be a label (panic otherwise). -/
def pop_label : Stack → Option (Label × Stack)
  | .label l :: rest => some (l, rest)
  | _ => none

/-- Discard value entries down to and including the next label entry;
reaching an activation or the stack bottom first is a panic. -/
def pop_one_label : Stack → Option Stack
  | .value _ :: rest => pop_one_label rest
  | .label _ :: rest => some rest
  | _ => none

/-- Modelled from the spec: `stack.rs` is not under `src/`.  `popLabels n`
pops `n` labels, discarding intervening values on unwind. -/
def pop_labels : Nat → Stack → Option Stack
  | 0, s => some s
  | n + 1, s => (pop_one_label s).bind (pop_labels n)

/-- Modelled from the spec: `stack.rs` is not under `src/`.
`peekLastLabel` returns the topmost label of the current frame, scanning
past value entries (panic when an activation or the bottom is reached
first). -/
def peek_last_label : Stack → Option Label
  | .value _ :: rest => peek_last_label rest
  | .label l :: _ => some l
  | _ => none

/-- Modelled from the spec: `stack.rs` is not under `src/`.
`popWhile p` removes and returns (top-first) the contiguous run of top
entries satisfying `p`. -/
def pop_while (p : StackValue → Bool) (s : Stack) : List StackValue × Stack :=
  (s.takeWhile p, s.dropWhile p)

/-- Modelled from the spec: `stack.rs` is not under `src/`.
`currentFrame` scans upward (here: down the list) to the nearest
activation. -/
def current_frame : Stack → Option CallFrame
  | .activation f :: _ => some f
  | _ :: rest => current_frame rest
  | [] => none

/-- Modelled from the spec: `stack.rs` is not under `src/`.
`currentFrameLabels` enumerates the labels above the current activation,
top-first. -/
def current_frame_labels : Stack → List Label
  | .label l :: rest => l :: current_frame_labels rest
  | .value _ :: rest => current_frame_labels rest
  | .activation _ :: _ => []
  | [] => []

/-- Modelled from the spec: `stack.rs` is not under `src/`.  `setFrame`
pushes an activation entry. -/
def set_frame (f : CallFrame) (s : Stack) : Stack :=
  .activation f :: s

/-- Modelled from the spec: `stack.rs` is not under `src/`.  `popFrame`
removes everything down to and including the current activation. -/
def pop_frame : Stack → Option Stack
  | .activation _ :: rest => some rest
  | _ :: rest => pop_frame rest
  | [] => none

/-- Modelled from the spec: `stack.rs` is not under `src/`.  `setLocal i v`
writes slot `i` of the current activation's local vector (panic when there
is no activation or the index is out of range). -/
def set_local (i : Nat) (v : Value) : Stack → Option Stack
  | .activation f :: rest =>
    if i < f.locals.length then
      some (.activation { f with locals := f.locals.set i v } :: rest)
    else
      none
  | e :: rest => (set_local i v rest).map (e :: ·)
  | [] => none

/-- Modelled from the spec: `stack.rs` is not under `src/`.
`isOverTopLevel` is true iff the current activation is the entry frame
(its `return_pc` is absent) and all its labels have been popped; with no
activation left at all the run is also over. -/
def is_over_top_level (s : Stack) : Bool :=
  match current_frame s with
  | some f => f.retPc.isNone && (current_frame_labels s).isEmpty
  | none => true

/-- Modelled from the spec: `stack.rs` is not under `src/`.
`current_func_addr` is the function address of the current frame. -/
def current_func_addr (s : Stack) : Option (Nat × Nat) :=
  (current_frame s).map (·.funcAddr)

/-- A function instance as seen by the core interpreter.  Modelled from the
spec: `func.rs` of wasminspect-core is not under `src/`; a `Defined`
instance carries its type, owning module, locals declaration (here the
number of declared non-parameter locals) and body, a `Host` instance its
type and names. -/
inductive FunctionInstance where
  | defined (ty : FuncType) (moduleIndex : Nat) (localLen : Nat) (body : List Instr)
  | host (ty : FuncType) (moduleName fieldName : String)
deriving DecidableEq, Repr

def FunctionInstance.ty : FunctionInstance → FuncType
  | .defined t _ _ _ => t
  | .host t _ _ => t

def FunctionInstance.definedBody : FunctionInstance → Option (List Instr)
  | .defined _ _ _ b => some b
  | .host _ _ _ => none

/-- The store as seen by the core interpreter.  Modelled from the spec: the
core crate's `store.rs` is not under `src/`; the interpreter only needs
function lookup by address and global read/write by address. -/
structure Store where
  funcs : List ((Nat × Nat) × FunctionInstance)
  globals : List ((Nat × Nat) × Value)
deriving DecidableEq, Repr

def assocFind {α : Type} (k : Nat × Nat) : List ((Nat × Nat) × α) → Option α
  | [] => none
  | (k', a) :: rest => if k = k' then some a else assocFind k rest

def assocSet {α : Type} (k : Nat × Nat) (a : α) :
    List ((Nat × Nat) × α) → Option (List ((Nat × Nat) × α))
  | [] => none
  | (k', a') :: rest =>
    if k = k' then some ((k', a) :: rest)
    else (assocSet k a rest).map ((k', a') :: ·)

/-- Function lookup (`Store::func`); a missing address is a panic at the
call sites, hence `Option`. -/
def Store.func (st : Store) (addr : Nat × Nat) : Option FunctionInstance :=
  assocFind addr st.funcs

/-- Global read (`Store::global` followed by `GlobalInstance::value`). -/
def Store.globalValue (st : Store) (addr : Nat × Nat) : Option Value :=
  assocFind addr st.globals

/-- Global write (`Store::set_global`); writing an unknown address is a
panic. -/
def Store.set_global (st : Store) (addr : Nat × Nat) (v : Value) : Option Store :=
  (assocSet addr v st.globals).map (fun gs => { st with globals := gs })

/-- The mutable state of `Executor`: its store, unified stack and program
counter (`last_ret_frame` is only read by `peek_result`, which no claim
touches, and is omitted). -/
structure ExecState where
  store : Store
  stack : Stack
  pc : ProgramCounter
deriving DecidableEq, Repr

/-- `ExecSuccess` from the source: continue (`Next`) or entry function
complete (`End`). -/
inductive ExecSuccess where
  | next
  | end_
deriving DecidableEq, Repr

/-- `ExecError` from the source. -/
inductive ExecError where
  | panicMsg (msg : String)
  | noCallFrame
deriving DecidableEq, Repr

/-- Outcome of one interpreter step: `Ok(success)`, `Err(error)` (both with
the mutated executor state), or a Rust panic. -/
inductive StepOutcome where
  | ok (s : ExecSuccess) (st : ExecState)
  | trap (e : ExecError) (st : ExecState)
  | panicked
deriving DecidableEq, Repr

/-- Instructions of the current frame's function
(`Executor::current_func_insts`): looks the current frame's function up in
the store and takes its defined body (panic for a host function or missing
address). -/
def current_func_insts (st : ExecState) : Option (List Instr) :=
  match current_func_addr st.stack with
  | none => none
  | some addr =>
    match st.store.func addr with
    | none => none
    | some f => f.definedBody

/-- The forward scan of `Executor::branch` for `Block`/`If` targets: read
the instruction at `index`, adjust the depth counter (`End` decrements,
`Block`/`If`/`Loop` increment), stop at the instruction where the counter
reaches zero; running past the end of the function is a panic. -/
def scanEnd (insts : List Instr) (index : Nat) (depth : Nat) : Option Nat :=
  match h : insts[index]? with
  | none => none
  | some inst =>
    let depth' : Nat :=
      match inst with
      | .end_ => depth - 1
      | .block => depth + 1
      | .if_ => depth + 1
      | .loop => depth + 1
      | _ => depth
    if depth' = 0 then some index
    else scanEnd insts (index + 1) depth'
termination_by insts.length - index
decreasing_by
  have hlt : index < insts.length := by
    by_contra hx
    rw [List.getElem?_eq_none (by omega)] at h
    exact Option.noConfusion h
  omega

/-- The forward scan of the `If` arm: like `scanEnd` but an `Else` at depth
one stops just past the `Else`. -/
def scanIfElse (insts : List Instr) (index : Nat) (depth : Nat) : Option Nat :=
  match h : insts[index]? with
  | none => none
  | some inst =>
    match inst with
    | .end_ =>
      if depth - 1 = 0 then some index else scanIfElse insts (index + 1) (depth - 1)
    | .block => scanIfElse insts (index + 1) (depth + 1)
    | .if_ => scanIfElse insts (index + 1) (depth + 1)
    | .loop => scanIfElse insts (index + 1) (depth + 1)
    | .else_ =>
      if depth = 1 then some (index + 1)
      else if depth = 0 then some index else scanIfElse insts (index + 1) depth
    | _ =>
      if depth = 0 then some index else scanIfElse insts (index + 1) depth
termination_by insts.length - index
decreasing_by
  all_goals
    have hlt : index < insts.length := by
      by_contra hx
      rw [List.getElem?_eq_none (by omega)] at h
      exact Option.noConfusion h
    omega

/-- `Executor::branch`: pop `depth` labels, then inspect the now-innermost
label; for `Loop` jump the pc to the loop start, for `Block`/`If` scan
forward with initial depth counter `depth + 1` to the matching `End`, and
for `Return` panic. -/
def branch (depth : Nat) (st : ExecState) : Option ExecState :=
  match pop_labels depth st.stack with
  | none => none
  | some s1 =>
    match peek_last_label s1 with
    | some (.loop l) => some { st with stack := s1, pc := st.pc.loop_jump l }
    | some .block | some .if_ =>
      match current_func_insts { st with stack := s1 } with
      | none => none
      | some insts =>
        match scanEnd insts st.pc.instIndex (depth + 1) with
        | none => none
        | some i => some { st with stack := s1, pc := { st.pc with instIndex := i } }
    | some .return_ => none
    | none => none

/-- `Executor::pop_as::<i32>`: pop a value and convert; a non-`I32` value
panics. -/
def pop_as_i32 (s : Stack) : Option (Int × Stack) :=
  match pop_value s with
  | some (.I32 v, s1) => some (v, s1)
  | _ => none

/-- `Executor::int_op`: pop `rhs`, then `lhs`, push `f lhs rhs`. -/
def int_op (st : ExecState) (f : Int → Int → Value) : StepOutcome :=
  match pop_as_i32 st.stack with
  | none => .panicked
  | some (rhs, s1) =>
    match pop_as_i32 s1 with
    | none => .panicked
    | some (lhs, s2) =>
      .ok .next { st with stack := push_value (f lhs rhs) s2 }

/-- Pop `n` values off the stack, returned top-first. -/
def pop_values : Nat → Stack → Option (List Value × Stack)
  | 0, s => some ([], s)
  | n + 1, s =>
    match pop_value s with
    | none => none
    | some (v, s1) =>
      match pop_values n s1 with
      | none => none
      | some (vs, s2) => some (v :: vs, s2)

/-- Push a list of values in list order (first element pushed first, hence
deepest), mirroring the source's `for v in result { push_value(v) }`
loops. -/
def push_values_list : List Value → Stack → Stack
  | [], s => s
  | v :: rest, s => push_values_list rest (push_value v s)

/-- Push harvested stack entries back in list order, unwrapping each as a
value (`push_value(*v.as_value().unwrap())`); a non-value entry panics. -/
def push_back_results : List StackValue → Stack → Option Stack
  | [], s => some s
  | .value v :: rest, s => push_back_results rest (push_value v s)
  | _ :: _, _ => none

/-- `Executor::invoke`: look the callee up, pop one argument per declared
parameter, then either push a new frame with a `Return` label and jump to
the callee (reversing the popped arguments back into declaration order),
or dispatch the builtin host function.  The locals vector of a new frame is
the arguments followed by the declared locals zero-initialised (modelled
from the spec: `func.rs` is not under `src/`). -/
def invoke (addr : Nat × Nat) (st : ExecState) : StepOutcome :=
  match st.store.func addr with
  | none => .panicked
  | some func =>
    match pop_values func.ty.params.length st.stack with
    | none => .panicked
    | some (args, s1) =>
      match func with
      | .defined _ _ localLen _ =>
        let pc' : ProgramCounter := { funcAddr := addr, instIndex := 0 }
        let frame : CallFrame :=
          { funcAddr := addr
            locals := args.reverse ++ List.replicate localLen (Value.I32 0)
            retPc := some st.pc }
        .ok .next { st with stack := push_label .return_ (set_frame frame s1), pc := pc' }
      | .host _ _ fieldName =>
        if fieldName = "print_i32" then
          .ok .next { st with stack := s1 }
        else
          .panicked

/-- The final check of `Executor::execute_inst`: when the stack is over the
top level the result is replaced by `Ok(End)` (a panic has already unwound
and is not replaced). -/
def check_top_level : StepOutcome → StepOutcome
  | .ok s st => if is_over_top_level st.stack then .ok .end_ st else .ok s st
  | .trap e st => if is_over_top_level st.stack then .ok .end_ st else .trap e st
  | .panicked => .panicked

/-- `Executor::execute_inst`: increment the pc, dispatch on the
instruction, then apply the over-top-level check.  `Unreachable` is a
`panic!()` in the source; the `_` arm (any unhandled opcode, `.other name`
here) returns `Err(Panic("<name> not supported yet"))` (its
`debug_assert!(false, ..)` is compiled out in release builds). -/
def execute_inst (inst : Instr) (module_index : Nat) (st0 : ExecState) : StepOutcome :=
  let st : ExecState := { st0 with pc := st0.pc.inc_inst_index }
  let result : StepOutcome :=
    match inst with
    | .unreachable => .panicked
    | .getGlobal index =>
      match st.store.globalValue (module_index, index) with
      | some v => .ok .next { st with stack := push_value v st.stack }
      | none => .panicked
    | .setGlobal index =>
      match pop_value st.stack with
      | none => .panicked
      | some (v, s1) =>
        match st.store.set_global (module_index, index) v with
        | some store1 => .ok .next { st with store := store1, stack := s1 }
        | none => .panicked
    | .setLocal index =>
      match pop_value st.stack with
      | none => .panicked
      | some (v, s1) =>
        match set_local index v s1 with
        | some s2 => .ok .next { st with stack := s2 }
        | none => .panicked
    | .getLocal index =>
      match current_frame st.stack with
      | none => .panicked
      | some f =>
        match f.locals[index]? with
        | some v => .ok .next { st with stack := push_value v st.stack }
        | none => .panicked
    | .i32Const v => .ok .next { st with stack := push_value (.I32 v) st.stack }
    | .i32Add => int_op st (fun a b => .I32 (i32wrap (a + b)))
    | .i32LtS => int_op st (fun a b => .I32 (if a < b then 1 else 0))
    | .i64Const v => .ok .next { st with stack := push_value (.I64 v) st.stack }
    | .f32Const bits => .ok .next { st with stack := push_value (.F32 bits) st.stack }
    | .f64Const bits => .ok .next { st with stack := push_value (.F64 bits) st.stack }
    | .block => .ok .next { st with stack := push_label .block st.stack }
    | .loop => .ok .next { st with stack := push_label (.loop st.pc.instIndex) st.stack }
    | .if_ =>
      let s1 := push_label .if_ st.stack
      match pop_as_i32 s1 with
      | none => .panicked
      | some (v, s2) =>
        if v = 0 then
          match current_func_insts { st with stack := s2 } with
          | none => .panicked
          | some insts =>
            match scanIfElse insts st.pc.instIndex 1 with
            | none => .panicked
            | some i => .ok .next { st with stack := s2, pc := { st.pc with instIndex := i } }
        else
          .ok .next { st with stack := s2 }
    | .else_ =>
      match branch 0 st with
      | some st1 => .ok .next st1
      | none => .panicked
    | .brIf depth =>
      match pop_value st.stack with
      | none => .panicked
      | some (v, s1) =>
        if v = Value.I32 0 then
          .ok .next { st with stack := s1 }
        else
          match branch depth { st with stack := s1 } with
          | some st1 => .ok .next st1
          | none => .panicked
    | .br depth =>
      match branch depth st with
      | some st1 => .ok .next st1
      | none => .panicked
    | .call funcIndex =>
      match current_frame st.stack with
      | none => .panicked
      | some frame => invoke (frame.module_index, funcIndex) st
    | .return_ =>
      match current_frame st.stack with
      | none => .panicked
      | some frame =>
        match st.store.func frame.funcAddr with
        | none => .panicked
        | some func =>
          let arity := if func.ty.ret.isSome then 1 else 0
          -- the source binds `result` without `mut` and then pushes into
          -- it; embedded with the evident intended mutation
          match pop_values arity st.stack with
          | none => .panicked
          | some (result, s1) =>
            let s2 := (pop_while (fun v => !v.isActivation) s1).2
            match pop_frame s2 with
            | none => .panicked
            | some s3 =>
              let st1 := { st with stack := push_values_list result s3 }
              match frame.retPc with
              | some rpc => .ok .next { st1 with pc := rpc }
              | none => .ok .next st1
    | .end_ =>
      if (current_frame_labels st.stack).isEmpty then
        -- the end of a function is reached without a jump
        match current_frame st.stack with
        | none => .panicked
        | some frame =>
          match st.store.func frame.funcAddr with
          | none => .panicked
          | some func =>
            let arity := if func.ty.ret.isSome then 1 else 0
            match pop_values arity st.stack with
            | none => .panicked
            | some (result, s1) =>
              match pop_frame s1 with
              | none => .panicked
              | some s2 =>
                let st1 := { st with stack := push_values_list result s2 }
                match frame.retPc with
                | some rpc => .ok .next { st1 with pc := rpc }
                | none => .ok .end_ st1
      else
        -- the end of a block is reached without a jump
        let harvested := pop_while StackValue.isValue st.stack
        match pop_label harvested.2 with
        | none => .panicked
        | some (label, s2) =>
          match push_back_results harvested.1 s2 with
          | none => .panicked
          | some s3 =>
            match label with
            | .loop l => .ok .next { st with stack := s3, pc := st.pc.loop_jump l }
            | _ => .ok .next { st with stack := s3 }
    | .nop => .ok .next st
    | .other name => .trap (.panicMsg (name ++ " not supported yet")) st
  check_top_level result

/-- `Executor::execute_step`: fetch the instruction at the pc from the
current function's body (panics for a missing or host function or an
out-of-range index) and execute it. -/
def execute_step (st : ExecState) : StepOutcome :=
  match st.store.func st.pc.funcAddr with
  | none => .panicked
  | some func =>
    match func with
    | .host _ _ _ => .panicked
    | .defined _ moduleIndex _ body =>
      match body[st.pc.instIndex]? with
      | none => .panicked
      | some inst => execute_inst inst moduleIndex st

/-- Result of the core `eval_const_expr`: a value, a bare `panic!()` (the
`GetGlobal` arm), a `panic!("Unsupported init_expr ..")` (the `_` arm), or
the indexing panic of `code()[0]` on an empty instruction list. -/
inductive ConstExprResult where
  | ok (v : Value)
  | getGlobalPanicked
  | unsupportedPanicked
  | emptyCodePanicked
deriving DecidableEq, Repr

/-- `eval_const_expr` of the core interpreter: inspect the first
instruction of the init expression; the four constant operators produce the
corresponding value (floats decoded from their bit patterns), `GetGlobal`
panics, anything else panics with an "Unsupported init_expr" message. -/
def eval_const_expr (code : List Instr) : ConstExprResult :=
  match code[0]? with
  | none => .emptyCodePanicked
  | some inst =>
    match inst with
    | .i32Const v => .ok (.I32 v)
    | .i64Const v => .ok (.I64 v)
    | .f32Const bits => .ok (.F32 bits)
    | .f64Const bits => .ok (.F64 bits)
    | .getGlobal _ => .getGlobalPanicked
    | _ => .unsupportedPanicked

end Core

namespace Vm

/-- Resizable limits of a memory or table
(`parity_wasm::elements::ResizableLimits`): initial size and optional
maximum, in pages respectively elements. -/
structure Limits where
  initial : Nat
  maximum : Option Nat
deriving DecidableEq, Repr

/-- A global's type (`parity_wasm::elements::GlobalType`): content type and
mutability. -/
structure GlobalType where
  contentType : ValueType
  isMutable : Bool
deriving DecidableEq, Repr

/-- `GlobalInstance` (`global.rs`, modelled from the spec: the file is not
under `src/`): a value together with its type. -/
structure GlobalInstance where
  value : Value
  ty : GlobalType
deriving DecidableEq, Repr

/-- Error type of `memory.rs`.  Modelled from the spec: the file is not
under `src/`; scenario S5 names the out-of-bounds failure. -/
inductive MemError where
  | outOfBounds
deriving DecidableEq, Repr

/-- `MemoryInstance` (modelled from the spec: `memory.rs` is not under
`src/`): a byte vector plus the declared limits in pages; a page is 65536
bytes. -/
structure MemoryInstance where
  bytes : List Nat
  initial : Nat
  max : Option Nat
deriving DecidableEq, Repr

/-- `MemoryInstance::new`: an all-zero byte vector of `initial` pages. -/
def MemoryInstance.new (initial : Nat) (max : Option Nat) : MemoryInstance :=
  { bytes := List.replicate (initial * 65536) 0, initial := initial, max := max }

/-- `MemoryInstance::validate_region` (modelled from the spec: the whole
region must fit inside the current byte vector). -/
def MemoryInstance.validate_region (m : MemoryInstance) (offset len : Nat) :
    Except MemError Unit :=
  if offset + len ≤ m.bytes.length then .ok () else .error .outOfBounds

/-- `MemoryInstance::store` (modelled from the spec): write `value` at
`offset`; the region must fit. -/
def MemoryInstance.store (m : MemoryInstance) (offset : Nat) (value : List Nat) :
    Except MemError MemoryInstance :=
  if offset + value.length ≤ m.bytes.length then
    .ok { m with bytes := m.bytes.take offset ++ value ++ m.bytes.drop (offset + value.length) }
  else
    .error .outOfBounds

/-- Error type of `table.rs`.  Modelled from the spec: the file is not
under `src/`; an element segment that overruns the table fails. -/
inductive TableError where
  | outOfBounds
deriving DecidableEq, Repr

/-- `TableInstance` (modelled from the spec: `table.rs` is not under
`src/`): a sparse vector of function addresses plus declared limits. -/
structure TableInstance where
  elements : List (Option (Nat × Nat))
  initial : Nat
  max : Option Nat
deriving DecidableEq, Repr

/-- `TableInstance::new`: `initial` empty element slots. -/
def TableInstance.new (initial : Nat) (max : Option Nat) : TableInstance :=
  { elements := List.replicate initial none, initial := initial, max := max }

/-- `TableInstance::initialize` (modelled from the spec): fill the region
starting at `offset` with the given function addresses; a segment that
overruns the table's current size fails. -/
def TableInstance.initialize (t : TableInstance) (offset : Nat) (data : List (Nat × Nat)) :
    Except TableError TableInstance :=
  if offset + data.length ≤ t.elements.length then
    .ok { t with
          elements :=
            t.elements.take offset ++ data.map some
              ++ t.elements.drop (offset + data.length) }
  else
    .error .outOfBounds

/-- A function body (`parity_wasm::elements::FuncBody`): local variable
declarations and code. -/
structure FuncBody where
  localsDecl : List (Nat × ValueType)
  code : List Instr
deriving DecidableEq, Repr

/-- `FunctionInstance` of the vm crate (`func.rs`, modelled from the spec:
the file is not under `src/`): a defined function with name, type, owning
module and body, or a host function (whose callable closure is opaque and
not needed by any store operation modelled here). -/
inductive FunctionInstance where
  | defined (name : String) (ty : FuncType) (moduleIndex : Nat) (body : FuncBody)
  | host (ty : FuncType) (moduleName fieldName : String)
deriving DecidableEq, Repr

def FunctionInstance.ty : FunctionInstance → FuncType
  | .defined _ t _ _ => t
  | .host t _ _ => t

/-- `LinkableCollection<T>` (modelled from the spec: `linker.rs` is not
under `src/`): an append-only global item list plus, per module index, an
ordered list of global handles (the local index to global handle map). -/
structure LinkableCollection (α : Type) where
  globalItems : List α
  moduleItems : List (Nat × List Nat)
deriving DecidableEq, Repr

def LinkableCollection.empty {α : Type} : LinkableCollection α :=
  { globalItems := [], moduleItems := [] }

def updateModuleItems (m : Nat) (f : List Nat → List Nat) :
    List (Nat × List Nat) → List (Nat × List Nat)
  | [] => [(m, f [])]
  | (k, v) :: rest =>
    if m = k then (k, f v) :: rest else (k, v) :: updateModuleItems m f rest

def lookupModuleItems (m : Nat) : List (Nat × List Nat) → Option (List Nat)
  | [] => none
  | (k, v) :: rest => if m = k then some v else lookupModuleItems m rest

/-- `LinkableCollection::items`: the module's local handle list. -/
def LinkableCollection.itemsOf {α : Type} (c : LinkableCollection α) (m : Nat) :
    Option (List Nat) :=
  lookupModuleItems m c.moduleItems

/-- `LinkableCollection::push`: append the item globally and record its
handle in the module's local list; returns the new local address together
with the collection. -/
def LinkableCollection.push {α : Type} (c : LinkableCollection α) (m : Nat) (a : α) :
    LinkableCollection α × Nat :=
  let handle := c.globalItems.length
  ({ globalItems := c.globalItems ++ [a]
     moduleItems := updateModuleItems m (fun l => l ++ [handle]) c.moduleItems },
   handle)

/-- `LinkableCollection::push_global`: append globally, in no module's
local list. -/
def LinkableCollection.push_global {α : Type} (c : LinkableCollection α) (a : α) :
    LinkableCollection α × Nat :=
  ({ c with globalItems := c.globalItems ++ [a] }, c.globalItems.length)

/-- `LinkableCollection::link`: append an existing global handle to another
module's local list (imports share the item, no copy). -/
def LinkableCollection.link {α : Type} (c : LinkableCollection α) (h : Nat) (m : Nat) :
    LinkableCollection α :=
  { c with moduleItems := updateModuleItems m (fun l => l ++ [h]) c.moduleItems }

/-- `LinkableCollection::resolve`: local address to global handle. -/
def LinkableCollection.resolve {α : Type} (c : LinkableCollection α) (addr : Nat × Nat) :
    Option Nat :=
  (c.itemsOf addr.1).bind (·[addr.2]?)

/-- `LinkableCollection::get_global`: item behind a global handle (an
out-of-range handle is a panic at the call sites). -/
def LinkableCollection.get_global {α : Type} (c : LinkableCollection α) (h : Nat) :
    Option α :=
  c.globalItems[h]?

/-- `LinkableCollection::get`: resolve a local address and return the item
with its handle. -/
def LinkableCollection.get {α : Type} (c : LinkableCollection α) (addr : Nat × Nat) :
    Option (α × Nat) :=
  (c.resolve addr).bind fun h => (c.get_global h).map (fun a => (a, h))

/-- Replace the item behind a global handle; this is the effect of mutating
through the shared `Rc<RefCell<..>>` handle the Rust code holds. -/
def LinkableCollection.setGlobalItem {α : Type} (c : LinkableCollection α) (h : Nat) (a : α) :
    LinkableCollection α :=
  { c with globalItems := c.globalItems.set h a }

/-- `LinkableCollection::remove_module`: drop only the module's local
list; globally-owned items remain. -/
def LinkableCollection.remove_module {α : Type} (c : LinkableCollection α) (m : Nat) :
    LinkableCollection α :=
  { c with moduleItems := c.moduleItems.filter (fun kv => kv.1 ≠ m) }

/-- `LinkableCollection::is_empty(module)`: the module has no local
entries. -/
def LinkableCollection.is_empty {α : Type} (c : LinkableCollection α) (m : Nat) : Bool :=
  ((c.itemsOf m).getD []).isEmpty

/-- The kind and internal index of one Wasm export
(`parity_wasm::elements::ExportEntry`). -/
inductive ExportKind where
  | func
  | table
  | mem
  | global
deriving DecidableEq, Repr

structure ExportEntry where
  name : String
  kind : ExportKind
  index : Nat
deriving DecidableEq, Repr

/-- Error of a defined module's export lookup (`module.rs`, modelled from
the spec: the file is not under `src/`): the named export exists but has
the wrong kind. -/
inductive DefinedModuleError where
  | typeMismatch
deriving DecidableEq, Repr

/-- Error of a host module's export lookup (modelled from the spec). -/
inductive HostModuleError where
  | typeMismatch
deriving DecidableEq, Repr

/-- A defined module instance (`module.rs`, modelled from the spec): types,
export map, optional start function, and its module index. -/
structure DefinedModuleInstance where
  types : List FuncType
  exports : List ExportEntry
  start : Option Nat
  moduleIndex : Nat
deriving DecidableEq, Repr

def findExport (name : String) : List ExportEntry → Option ExportEntry
  | [] => none
  | e :: rest => if e.name = name then some e else findExport name rest

/-- Export lookup of a given kind on a defined module: absent name is
`Ok(None)`, wrong kind is an error, otherwise the local address
`(module index, internal index)`. -/
def DefinedModuleInstance.exportedOfKind (d : DefinedModuleInstance) (k : ExportKind)
    (name : String) : Except DefinedModuleError (Option (Nat × Nat)) :=
  match findExport name d.exports with
  | none => .ok none
  | some e => if e.kind = k then .ok (some (d.moduleIndex, e.index)) else .error .typeMismatch

def DefinedModuleInstance.exported_func (d : DefinedModuleInstance) (name : String) :
    Except DefinedModuleError (Option (Nat × Nat)) :=
  d.exportedOfKind .func name

def DefinedModuleInstance.exported_memory (d : DefinedModuleInstance) (name : String) :
    Except DefinedModuleError (Option (Nat × Nat)) :=
  d.exportedOfKind .mem name

def DefinedModuleInstance.exported_table (d : DefinedModuleInstance) (name : String) :
    Except DefinedModuleError (Option (Nat × Nat)) :=
  d.exportedOfKind .table name

def DefinedModuleInstance.exported_global (d : DefinedModuleInstance) (name : String) :
    Except DefinedModuleError (Option (Nat × Nat)) :=
  d.exportedOfKind .global name

/-- One export of a host module: a global handle of the respective
collection. -/
inductive HostExport where
  | func (h : Nat)
  | table (h : Nat)
  | mem (h : Nat)
  | global (h : Nat)
deriving DecidableEq, Repr

/-- A host module instance: its export map. -/
structure HostModuleInstance where
  exports : List (String × HostExport)
deriving DecidableEq, Repr

def findHostExport (name : String) : List (String × HostExport) → Option HostExport
  | [] => none
  | (n, e) :: rest => if n = name then some e else findHostExport name rest

def HostModuleInstance.func_by_name (m : HostModuleInstance) (name : String) :
    Except HostModuleError (Option Nat) :=
  match findHostExport name m.exports with
  | none => .ok none
  | some (.func h) => .ok (some h)
  | some _ => .error .typeMismatch

def HostModuleInstance.memory_by_name (m : HostModuleInstance) (name : String) :
    Except HostModuleError (Option Nat) :=
  match findHostExport name m.exports with
  | none => .ok none
  | some (.mem h) => .ok (some h)
  | some _ => .error .typeMismatch

def HostModuleInstance.table_by_name (m : HostModuleInstance) (name : String) :
    Except HostModuleError (Option Nat) :=
  match findHostExport name m.exports with
  | none => .ok none
  | some (.table h) => .ok (some h)
  | some _ => .error .typeMismatch

def HostModuleInstance.global_by_name (m : HostModuleInstance) (name : String) :
    Except HostModuleError (Option Nat) :=
  match findHostExport name m.exports with
  | none => .ok none
  | some (.global h) => .ok (some h)
  | some _ => .error .typeMismatch

/-- `ModuleInstance`: defined or host. -/
inductive ModuleInstance where
  | defined (m : DefinedModuleInstance)
  | host (m : HostModuleInstance)
deriving DecidableEq, Repr

/-- The `Store` of `crates/vm/src/store.rs`: the four linkable collections,
the module vector and the name map (the type-keyed `embedded_contexts`
registry holds opaque host state, is touched by no claim, and is
omitted). -/
structure Store where
  funcs : LinkableCollection FunctionInstance
  tables : LinkableCollection TableInstance
  mems : LinkableCollection MemoryInstance
  globals : LinkableCollection GlobalInstance
  modules : List ModuleInstance
  moduleIndexByName : List (String × Nat)
deriving DecidableEq, Repr

def Store.new : Store :=
  { funcs := .empty, tables := .empty, mems := .empty, globals := .empty
    modules := [], moduleIndexByName := [] }

def lookupName (name : String) : List (String × Nat) → Option Nat
  | [] => none
  | (n, i) :: rest => if n = name then some i else lookupName name rest

/-- `HashMap::insert`: replace an existing binding or append a new one. -/
def insertName (name : String) (idx : Nat) : List (String × Nat) → List (String × Nat)
  | [] => [(name, idx)]
  | (n, i) :: rest =>
    if n = name then (n, idx) :: rest else (n, i) :: insertName name idx rest

/-- `HashMap::remove`. -/
def eraseName (name : String) (m : List (String × Nat)) : List (String × Nat) :=
  m.filter (fun kv => kv.1 ≠ name)

/-- `Store::module_by_name` followed by `Store::module`: a name that was
never registered, or an index outside the module vector, is a panic. -/
def Store.module_by_name (st : Store) (name : String) : Option ModuleInstance :=
  (lookupName name st.moduleIndexByName).bind fun i => st.modules[i]?

/-- Trap of the vm executor (modelled from the spec: the vm crate's
`executor.rs` is not under `src/`); only its propagation through
`Error::FailedEntryFunction` matters to the store. -/
inductive WasmError where
  | trap (msg : String)
deriving DecidableEq, Repr

/-- The `Error` enum of `store.rs`. -/
inductive StoreError where
  | invalidElementSegments (e : TableError)
  | invalidDataSegments (e : MemError)
  | invalidHostImport (e : HostModuleError)
  | invalidImport (e : DefinedModuleError)
  | unknownType (idx : Nat)
  | undefinedFunction (moduleName fieldName : String)
  | undefinedMemory (moduleName fieldName : String)
  | undefinedTable (moduleName fieldName : String)
  | undefinedGlobal (moduleName fieldName : String)
  | failedEntryFunction (e : WasmError)
  | incompatibleImportFuncType (name : String) (expected actual : FuncType)
  | incompatibleImportGlobalType (expected actual : ValueType)
  | incompatibleImportGlobalMutability
  | incompatibleImportTableType
  | incompatibleImportMemoryType
deriving DecidableEq, Repr

/-- Result of a store operation that mutates the store in place: success or
a returned error (both with the store as mutated so far), or a Rust panic
(which unwinds, leaving no observable store). -/
inductive LoadRes (α : Type) where
  | ok (a : α) (st : Store)
  | err (e : StoreError) (st : Store)
  | panicked
deriving DecidableEq, Repr

/-- Result of a store operation that only reads the store. -/
inductive PRes (α : Type) where
  | ok (a : α)
  | err (e : StoreError)
  | panicked
deriving DecidableEq, Repr

/-- One import entry (`parity_wasm::elements::ImportEntry`): module name,
field name, and the external description. -/
inductive ImportDesc where
  | func (typeIndex : Nat)
  | mem (limits : Limits)
  | table (limits : Limits)
  | global (ty : GlobalType)
deriving DecidableEq, Repr

structure ImportEntry where
  moduleName : String
  fieldName : String
  desc : ImportDesc
deriving DecidableEq, Repr

/-- A global definition entry (`parity_wasm::elements::GlobalEntry`): type
and init expression.  Per the spec (section 4.4) an init expression is a
single constant operator, embedded as one instruction. -/
structure GlobalEntry where
  ty : GlobalType
  initExpr : Instr
deriving DecidableEq, Repr

/-- An element segment: target table index, offset init expression (absent
offsets panic at the `.unwrap()` in the source) and member function
indices. -/
structure ElemSegment where
  index : Nat
  offset : Option Instr
  members : List Nat
deriving DecidableEq, Repr

/-- A data segment: target memory index, offset init expression, and
bytes. -/
structure DataSegment where
  index : Nat
  offset : Option Instr
  value : List Nat
deriving DecidableEq, Repr

/-- A parsed Wasm module (`parity_wasm::elements::Module`) restricted to
the sections `load_parity_module` reads.  `functions` holds the type
references of the function section, zipped with `bodies` of the code
section. -/
structure PModule where
  types : List FuncType
  imports : List ImportEntry
  functions : List Nat
  bodies : List FuncBody
  globals : List GlobalEntry
  tables : List Limits
  elements : List ElemSegment
  memories : List Limits
  dataSegs : List DataSegment
  exports : List ExportEntry
  start : Option Nat
deriving DecidableEq, Repr

/-- `DefinedModuleInstance::new_from_parity_module`. -/
def DefinedModuleInstance.new_from_parity_module (pm : PModule) (moduleIndex : Nat) :
    DefinedModuleInstance :=
  { types := pm.types, exports := pm.exports, start := pm.start, moduleIndex := moduleIndex }

/-- Rust's `as usize` cast of an `i32` value: sign-extend and reinterpret
as an unsigned 64-bit integer. -/
def intToUsize (v : Int) : Nat :=
  (v % 2 ^ 64).toNat

/-- `eval_const_expr` of the vm crate.  Modelled from the spec: the vm
crate's `executor.rs` is not under `src/`; per section 4.4 the supported
operators are the four constants and `GetGlobal` of an immutable global
resolvable in the evaluating module, anything else fails
(`UnsupportedInitExpr`); the call sites in `store.rs` consume the value
directly, so failure surfaces as a panic (`none`). -/
def eval_const_expr (st : Store) (moduleIndex : Nat) (e : Instr) : Option Value :=
  match e with
  | .i32Const v => some (.I32 v)
  | .i64Const v => some (.I64 v)
  | .f32Const bits => some (.F32 bits)
  | .f64Const bits => some (.F64 bits)
  | .getGlobal g =>
    match st.globals.get (moduleIndex, g) with
    | some (gi, _) => if gi.ty.isMutable then none else some gi.value
    | none => none
  | _ => none

/-- The resolution prefix of `Store::load_import_function`: registry lookup
(panic when the module name is unknown), export lookup, and for a defined
exporter the `resolve` to a global handle. -/
def resolve_import_function (st : Store) (imp : ImportEntry) : PRes Nat :=
  match st.module_by_name imp.moduleName with
  | none => .panicked
  | some (.defined d) =>
    match d.exported_func imp.fieldName with
    | .error e => .err (.invalidImport e)
    | .ok none => .err (.undefinedFunction imp.moduleName imp.fieldName)
    | .ok (some addr) =>
      match st.funcs.resolve addr with
      | none => .err (.undefinedFunction imp.moduleName imp.fieldName)
      | some h => .ok h
  | some (.host hm) =>
    match hm.func_by_name imp.fieldName with
    | .error e => .err (.invalidHostImport e)
    | .ok none => .err (.undefinedFunction imp.moduleName imp.fieldName)
    | .ok (some h) => .ok h

/-- `Store::load_import_function`: look the declared type up, resolve
the import, compare signatures structurally, and link the handle. -/
def load_import_function (module_index : Nat) (imp : ImportEntry) (type_index : Nat)
    (types : List FuncType) (st : Store) : LoadRes Unit :=
  match types[type_index]? with
  | none => .err (.unknownType type_index) st
  | some func_ty =>
    match resolve_import_function st imp with
    | .panicked => .panicked
    | .err e => .err e st
    | .ok exec_addr =>
      match st.funcs.get_global exec_addr with
      | none => .panicked
      | some f =>
        if f.ty ≠ func_ty then
          .err (.incompatibleImportFuncType imp.fieldName func_ty f.ty) st
        else
          .ok () { st with funcs := st.funcs.link exec_addr module_index }

/-- The resolution prefix of `Store::load_import_memory`. -/
def resolve_import_memory (st : Store) (imp : ImportEntry) : PRes Nat :=
  match st.module_by_name imp.moduleName with
  | none => .panicked
  | some (.defined d) =>
    match d.exported_memory imp.fieldName with
    | .error e => .err (.invalidImport e)
    | .ok none => .err (.undefinedMemory imp.moduleName imp.fieldName)
    | .ok (some addr) =>
      match st.mems.resolve addr with
      | none => .err (.undefinedMemory imp.moduleName imp.fieldName)
      | some h => .ok h
  | some (.host hm) =>
    match hm.memory_by_name imp.fieldName with
    | .error e => .err (.invalidHostImport e)
    | .ok none => .err (.undefinedMemory imp.moduleName imp.fieldName)
    | .ok (some h) => .ok h

/-- `Store::load_import_memory`: resolve, validate the limits (initial at
least the requested initial; a requested maximum demands a present actual
maximum not exceeding it), then link the resolved handle into the local
list of the importing module. -/
def load_import_memory (module_index : Nat) (imp : ImportEntry) (memory_ty : Limits)
    (st : Store) : LoadRes Unit :=
  match resolve_import_memory st imp with
  | .panicked => .panicked
  | .err e => .err e st
  | .ok resolved_addr =>
    match st.mems.get_global resolved_addr with
    | none => .panicked
    | some memory =>
      let linked : LoadRes Unit :=
        .ok () { st with mems := st.mems.link resolved_addr module_index }
      if memory.initial < memory_ty.initial then
        .err .incompatibleImportMemoryType st
      else
        match memory.max, memory_ty.maximum with
        | some found, some expected =>
          if found > expected then .err .incompatibleImportMemoryType st else linked
        | none, some _ => .err .incompatibleImportMemoryType st
        | _, _ => linked

/-- The resolution prefix of `Store::load_import_table`. -/
def resolve_import_table (st : Store) (imp : ImportEntry) : PRes Nat :=
  match st.module_by_name imp.moduleName with
  | none => .panicked
  | some (.defined d) =>
    match d.exported_table imp.fieldName with
    | .error e => .err (.invalidImport e)
    | .ok none => .err (.undefinedTable imp.moduleName imp.fieldName)
    | .ok (some addr) =>
      match st.tables.resolve addr with
      | none => .err (.undefinedTable imp.moduleName imp.fieldName)
      | some h => .ok h
  | some (.host hm) =>
    match hm.table_by_name imp.fieldName with
    | .error e => .err (.invalidHostImport e)
    | .ok none => .err (.undefinedTable imp.moduleName imp.fieldName)
    | .ok (some h) => .ok h

/-- `Store::load_import_table`: same limit rule as memory imports. -/
def load_import_table (module_index : Nat) (imp : ImportEntry) (table_ty : Limits)
    (st : Store) : LoadRes Unit :=
  match resolve_import_table st imp with
  | .panicked => .panicked
  | .err e => .err e st
  | .ok resolved_addr =>
    match st.tables.get_global resolved_addr with
    | none => .panicked
    | some found =>
      let linked : LoadRes Unit :=
        .ok () { st with tables := st.tables.link resolved_addr module_index }
      if found.initial < table_ty.initial then
        .err .incompatibleImportTableType st
      else
        match found.max, table_ty.maximum with
        | some f, some expected =>
          if f > expected then .err .incompatibleImportTableType st else linked
        | none, some _ => .err .incompatibleImportTableType st
        | _, _ => linked

/-- The resolution prefix of `Store::load_import_global`. -/
def resolve_import_global (st : Store) (imp : ImportEntry) : PRes Nat :=
  match st.module_by_name imp.moduleName with
  | none => .panicked
  | some (.defined d) =>
    match d.exported_global imp.fieldName with
    | .error e => .err (.invalidImport e)
    | .ok none => .err (.undefinedGlobal imp.moduleName imp.fieldName)
    | .ok (some addr) =>
      match st.globals.resolve addr with
      | none => .err (.undefinedGlobal imp.moduleName imp.fieldName)
      | some h => .ok h
  | some (.host hm) =>
    match hm.global_by_name imp.fieldName with
    | .error e => .err (.invalidHostImport e)
    | .ok none => .err (.undefinedGlobal imp.moduleName imp.fieldName)
    | .ok (some h) => .ok h

/-- `Store::load_import_global`: matching mutability, then matching content
type, then link. -/
def load_import_global (module_index : Nat) (imp : ImportEntry) (global_ty : GlobalType)
    (st : Store) : LoadRes Unit :=
  match resolve_import_global st imp with
  | .panicked => .panicked
  | .err e => .err e st
  | .ok resolved_addr =>
    match st.globals.get_global resolved_addr with
    | none => .panicked
    | some actual =>
      if actual.ty.isMutable ≠ global_ty.isMutable then
        .err .incompatibleImportGlobalMutability st
      else if actual.ty.contentType ≠ global_ty.contentType then
        .err (.incompatibleImportGlobalType actual.ty.contentType global_ty.contentType) st
      else
        .ok () { st with globals := st.globals.link resolved_addr module_index }

/-- The loop of `Store::load_imports`: process the import section in order,
dispatching on the external kind; the first failure aborts. -/
def load_imports_loop (module_index : Nat) (types : List FuncType) :
    List ImportEntry → Store → LoadRes Unit
  | [], st => .ok () st
  | imp :: rest, st =>
    let step : LoadRes Unit :=
      match imp.desc with
      | .func t => load_import_function module_index imp t types st
      | .mem l => load_import_memory module_index imp l st
      | .table l => load_import_table module_index imp l st
      | .global g => load_import_global module_index imp g st
    match step with
    | .ok _ st1 => load_imports_loop module_index types rest st1
    | .err e st1 => .err e st1
    | .panicked => .panicked

def load_imports (pm : PModule) (module_index : Nat) (types : List FuncType)
    (st : Store) : LoadRes Unit :=
  load_imports_loop module_index types pm.imports st

/-- The loop of `Store::load_functions`: zip the function section with the
code section, look each type reference up, and push a defined function
instance named after its position in the global function list. -/
def load_functions_loop (module_index : Nat) (types : List FuncType) :
    List (Nat × FuncBody) → Store → LoadRes Unit
  | [], st => .ok () st
  | (tyref, body) :: rest, st =>
    match types[tyref]? with
    | none => .err (.unknownType tyref) st
    | some func_type =>
      let name := "<module defined func #" ++ toString st.funcs.globalItems.length ++ ">"
      let inst := FunctionInstance.defined name func_type module_index body
      load_functions_loop module_index types rest
        { st with funcs := (st.funcs.push module_index inst).1 }

def load_functions (pm : PModule) (module_index : Nat) (types : List FuncType)
    (st : Store) : LoadRes Unit :=
  load_functions_loop module_index types (pm.functions.zip pm.bodies) st

/-- The loop of `Store::load_globals`: evaluate each init expression (a
failure there is a panic, the call site consumes the value directly) and
push a global instance. -/
def load_globals_loop (module_index : Nat) : List GlobalEntry → Store → LoadRes Unit
  | [], st => .ok () st
  | entry :: rest, st =>
    match eval_const_expr st module_index entry.initExpr with
    | none => .panicked
    | some value =>
      load_globals_loop module_index rest
        { st with globals := (st.globals.push module_index ⟨value, entry.ty⟩).1 }

def load_globals (pm : PModule) (module_index : Nat) (st : Store) : LoadRes Unit :=
  load_globals_loop module_index pm.globals st

/-- The table-definition push phase of `Store::load_tables`. -/
def push_tables_pure (module_index : Nat) : List Limits → Store → Store
  | [], st => st
  | l :: rest, st =>
    push_tables_pure module_index rest
      { st with tables := (st.tables.push module_index (TableInstance.new l.initial l.maximum)).1 }

/-- The inner element-segment loop of `Store::load_tables` for one table:
evaluate the offset (panic when absent, unevaluable, or not an `I32`),
build the function address list and initialise the table region through
the shared handle. -/
def load_tables_seg_loop (module_index : Nat) (table_addr : Nat) :
    List ElemSegment → Store → LoadRes Unit
  | [], st => .ok () st
  | seg :: rest, st =>
    match seg.offset with
    | none => .panicked
    | some e =>
      match eval_const_expr st module_index e with
      | none => .panicked
      | some (.I32 v) =>
        let data := seg.members.map (fun fi => (module_index, fi))
        match st.tables.get_global table_addr with
        | none => .panicked
        | some table =>
          match table.initialize (intToUsize v) data with
          | .error e => .err (.invalidElementSegments e) st
          | .ok table' =>
            load_tables_seg_loop module_index table_addr rest
              { st with tables := st.tables.setGlobalItem table_addr table' }
      | some _ => .panicked

/-- The outer loop of `Store::load_tables` over the module's table handles
(imported tables included), paired with their local indices: apply every
element segment targeting that index. -/
def load_tables_init_loop (module_index : Nat) (elems : List ElemSegment) :
    List (Nat × Nat) → Store → LoadRes Unit
  | [], st => .ok () st
  | (index, table_addr) :: rest, st =>
    match load_tables_seg_loop module_index table_addr
        (elems.filter (fun s => s.index = index)) st with
    | .ok _ st1 => load_tables_init_loop module_index elems rest st1
    | .err e st1 => .err e st1
    | .panicked => .panicked

/-- `Store::load_tables`: early return when the module declares no tables
and has none imported; otherwise push the declared tables, then initialise
all element segments (the missing module-items entry of the `.unwrap()` is
a panic). -/
def load_tables (pm : PModule) (module_index : Nat) (st : Store) : LoadRes Unit :=
  if pm.tables.isEmpty && st.tables.is_empty module_index then .ok () st
  else
    let st1 := push_tables_pure module_index pm.tables st
    match st1.tables.itemsOf module_index with
    | none => .panicked
    | some items => load_tables_init_loop module_index pm.elements items.enum st1

/-- The memory-definition push phase of `Store::load_mems`. -/
def push_mems_pure (module_index : Nat) : List Limits → Store → Store
  | [], st => st
  | l :: rest, st =>
    push_mems_pure module_index rest
      { st with mems := (st.mems.push module_index (MemoryInstance.new l.initial l.maximum)).1 }

/-- The validation loop of `Store::load_mems` for the data segments of one
memory: evaluate the offset (panic when absent, unevaluable or not `I32`),
validate that the region fits, and collect `(handle, offset, bytes)` for
the deferred write; no memory is mutated here. -/
def collect_seg_loop (st : Store) (module_index mem_addr : Nat) :
    List DataSegment → PRes (List (Nat × Nat × List Nat))
  | [] => .ok []
  | seg :: rest =>
    match seg.offset with
    | none => .panicked
    | some e =>
      match eval_const_expr st module_index e with
      | none => .panicked
      | some (.I32 v) =>
        match st.mems.get_global mem_addr with
        | none => .panicked
        | some mem =>
          match mem.validate_region (intToUsize v) seg.value.length with
          | .error err => .err (.invalidDataSegments err)
          | .ok _ =>
            match collect_seg_loop st module_index mem_addr rest with
            | .ok rest' => .ok ((mem_addr, intToUsize v, seg.value) :: rest')
            | .err e => .err e
            | .panicked => .panicked
      | some _ => .panicked

/-- The outer validation loop of `Store::load_mems` over the module's
memory handles (imported memories included) paired with their local
indices. -/
def collect_data_loop (st : Store) (module_index : Nat) (dataSegs : List DataSegment) :
    List (Nat × Nat) → PRes (List (Nat × Nat × List Nat))
  | [] => .ok []
  | (index, mem_addr) :: rest =>
    match collect_seg_loop st module_index mem_addr
        (dataSegs.filter (fun s => s.index = index)) with
    | .err e => .err e
    | .panicked => .panicked
    | .ok trips =>
      match collect_data_loop st module_index dataSegs rest with
      | .ok trips2 => .ok (trips ++ trips2)
      | .err e => .err e
      | .panicked => .panicked

/-- The write loop of `Store::load_mems`: apply each collected segment
write through the shared memory handle. -/
def apply_data_loop : List (Nat × Nat × List Nat) → Store → LoadRes Unit
  | [], st => .ok () st
  | (h, off, val) :: rest, st =>
    match st.mems.get_global h with
    | none => .panicked
    | some mem =>
      match mem.store off val with
      | .error e => .err (.invalidDataSegments e) st
      | .ok mem' => apply_data_loop rest { st with mems := st.mems.setGlobalItem h mem' }

/-- `Store::load_mems`: early return when the module declares no memories
and has none imported; otherwise push the declared memories, validate
every data segment region first, and only after all segments validate
apply the writes. -/
def load_mems (pm : PModule) (module_index : Nat) (st : Store) : LoadRes Unit :=
  if pm.memories.isEmpty && st.mems.is_empty module_index then .ok () st
  else
    let st1 := push_mems_pure module_index pm.memories st
    match st1.mems.itemsOf module_index with
    | none => .panicked
    | some items =>
      match collect_data_loop st1 module_index pm.dataSegs items.enum with
      | .err e => .err e st1
      | .panicked => .panicked
      | .ok triples => apply_data_loop triples st1

/-- `Store::load_parity_module_internal`: imports, functions, globals,
tables, memories, then append the defined module instance and the optional
name binding. -/
def load_parity_module_internal (name : Option String) (pm : PModule)
    (module_index : Nat) (st : Store) : LoadRes Nat :=
  match load_imports pm module_index pm.types st with
  | .panicked => .panicked
  | .err e st1 => .err e st1
  | .ok _ st1 =>
    match load_functions pm module_index pm.types st1 with
    | .panicked => .panicked
    | .err e st2 => .err e st2
    | .ok _ st2 =>
      match load_globals pm module_index st2 with
      | .panicked => .panicked
      | .err e st3 => .err e st3
      | .ok _ st3 =>
        match load_tables pm module_index st3 with
        | .panicked => .panicked
        | .err e st4 => .err e st4
        | .ok _ st4 =>
          match load_mems pm module_index st4 with
          | .panicked => .panicked
          | .err e st5 => .err e st5
          | .ok _ st5 =>
            let inst := DefinedModuleInstance.new_from_parity_module pm module_index
            let st6 := { st5 with modules := st5.modules ++ [ModuleInstance.defined inst] }
            let st7 :=
              match name with
              | some n => { st6 with moduleIndexByName := insertName n module_index st6.moduleIndexByName }
              | none => st6
            .ok module_index st7

/-- Outcome of invoking a function through the vm executor: the executor
may mutate the store (global writes, memory stores), trap, or panic. -/
inductive InvokeRes where
  | ok (st : Store)
  | err (e : WasmError) (st : Store)
  | panicked
deriving DecidableEq, Repr

/-- The rollback block of `Store::load_parity_module`: `remove_module` on
the four collections, remove the module instance if it was appended, and
remove the name binding. -/
def cleanup_failed_load (module_index : Nat) (name : Option String) (st : Store) : Store :=
  let st1 := { st with
               funcs := st.funcs.remove_module module_index
               tables := st.tables.remove_module module_index
               mems := st.mems.remove_module module_index
               globals := st.globals.remove_module module_index }
  let st2 :=
    if module_index < st1.modules.length then
      { st1 with modules := st1.modules.eraseIdx module_index }
    else st1
  match name with
  | some n => { st2 with moduleIndexByName := eraseName n st2.moduleIndexByName }
  | none => st2

/-- `Store::load_parity_module`: run the internal loader, then invoke the
start function if one is declared (on whatever state the internal loader
left, success or error); a start-function failure propagates through `?`
as `FailedEntryFunction` immediately, before the match on the internal
result that performs the rollback.  `invoke_func` lives in the vm crate's
`executor.rs`, which is not under `src/`, and is abstracted as a
parameter. -/
def load_parity_module (invoke_func : Nat × Nat → Store → InvokeRes)
    (name : Option String) (pm : PModule) (st0 : Store) : LoadRes Nat :=
  let module_index := st0.modules.length
  match load_parity_module_internal name pm module_index st0 with
  | .panicked => .panicked
  | .ok a st1 =>
    match pm.start with
    | none => .ok a st1
    | some s =>
      match invoke_func (module_index, s) st1 with
      | .panicked => .panicked
      | .err e st2 => .err (.failedEntryFunction e) st2
      | .ok st2 => .ok a st2
  | .err e st1 =>
    match pm.start with
    | none => .err e (cleanup_failed_load module_index name st1)
    | some s =>
      match invoke_func (module_index, s) st1 with
      | .panicked => .panicked
      | .err e2 st2 => .err (.failedEntryFunction e2) st2
      | .ok st2 => .err e (cleanup_failed_load module_index name st2)

end Vm

/-! Classifier predicates on instructions, used to state which operators the
constant-expression evaluator supports. -/

/-- The four constant operators of section 4.4. -/
def Instr.isConstOperator : Instr → Bool
  | .i32Const _ => true
  | .i64Const _ => true
  | .f32Const _ => true
  | .f64Const _ => true
  | _ => false

/-- The `GetGlobal` operator. -/
def Instr.isGetGlobal : Instr → Bool
  | .getGlobal _ => true
  | _ => false

/-! Concrete sample states used to evaluate the embedded code at specific
inputs. -/

/-- An entry call frame (`return_pc` absent). -/
def sampleFrame : Core.CallFrame :=
  { funcAddr := (0, 0), locals := [], retPc := none }

/-- A core store with no functions and no globals. -/
def emptyCoreStore : Core.Store :=
  { funcs := [], globals := [] }

/-- An executor state whose stack is an entry frame under its `Return`
label, as `Executor::new` builds it. -/
def sampleState : Core.ExecState :=
  { store := emptyCoreStore
    stack := [.label .return_, .activation sampleFrame]
    pc := { funcAddr := (0, 0), instIndex := 0 } }

/-- An executor state about to execute the `End` of a block with two result
values above the `Block` label. -/
def endBlockState : Core.ExecState :=
  { store := emptyCoreStore
    stack := [.value (.I32 1), .value (.I32 2), .label .block,
              .label .return_, .activation sampleFrame]
    pc := { funcAddr := (0, 0), instIndex := 5 } }

/-- A start-function invocation that traps, leaving the store as it found
it. -/
def trapInvoke : Nat × Nat → Vm.Store → Vm.InvokeRes :=
  fun _ st => .err (.trap "start trapped") st

/-- A module whose only content is a start-section entry. -/
def startOnlyModule : Vm.PModule :=
  { types := [], imports := [], functions := [], bodies := [], globals := []
    tables := [], elements := [], memories := [], dataSegs := [], exports := []
    start := some 0 }

/-- The store `load_parity_module trapInvoke (some "m") startOnlyModule`
actually leaves behind: the module instance appended and the name bound. -/
def afterStartTrapStore : Vm.Store :=
  { Vm.Store.new with
    modules := [.defined { types := [], exports := [], start := some 0, moduleIndex := 0 }]
    moduleIndexByName := [("m", 0)] }

/-- A four-byte memory instance. -/
def c3Mem : Vm.MemoryInstance :=
  { bytes := [0, 0, 0, 0], initial := 1, max := none }

/-- A store owning one memory, linked as module 0's memory 0. -/
def c3Store : Vm.Store :=
  { Vm.Store.new with mems := { globalItems := [c3Mem], moduleItems := [(0, [0])] } }

/-- A module with no own memories and a single data segment of three bytes
at offset 2, which does not fit the four-byte imported memory. -/
def c3Module : Vm.PModule :=
  { types := [], imports := [], functions := [], bodies := [], globals := []
    tables := [], elements := [], memories := []
    dataSegs := [{ index := 0, offset := some (.i32Const 2), value := [9, 9, 9] }]
    exports := [], start := none }

/-- An actual memory too small for the requested limits of scenario S4. -/
def c2Mem : Vm.MemoryInstance :=
  { bytes := [], initial := 1, max := none }

/-- A store with a host module `env` exporting that memory as `mem`. -/
def c2Store : Vm.Store :=
  { Vm.Store.new with
    mems := { globalItems := [c2Mem], moduleItems := [] }
    modules := [.host { exports := [("mem", .mem 0)] }]
    moduleIndexByName := [("env", 0)] }

/-- The import entry of scenario S4: memory `env.mem` with requested
limits initial 2, max 4. -/
def c2Import : Vm.ImportEntry :=
  { moduleName := "env", fieldName := "mem", desc := .mem { initial := 2, maximum := some 4 } }

/-! Helper lemmas about the modelled stack. -/

namespace Core

theorem current_frame_value_cons (v : Value) (s : Stack) :
    current_frame (.value v :: s) = current_frame s := rfl

theorem current_frame_label_cons (l : Label) (s : Stack) :
    current_frame (.label l :: s) = current_frame s := rfl

theorem current_frame_values_append (vs : List Value) (s : Stack) :
    current_frame (vs.map .value ++ s) = current_frame s := by
  induction vs with
  | nil => rfl
  | cons v vs ih => simpa [current_frame_value_cons] using ih

theorem current_frame_labels_value_cons (v : Value) (s : Stack) :
    current_frame_labels (.value v :: s) = current_frame_labels s := rfl

theorem current_frame_labels_values_append (vs : List Value) (s : Stack) :
    current_frame_labels (vs.map .value ++ s) = current_frame_labels s := by
  induction vs with
  | nil => rfl
  | cons v vs ih => simpa [current_frame_labels_value_cons] using ih

theorem peek_last_label_value_cons (v : Value) (s : Stack) :
    peek_last_label (.value v :: s) = peek_last_label s := rfl

theorem peek_last_label_values_append (vs : List Value) (s : Stack) :
    peek_last_label (vs.map .value ++ s) = peek_last_label s := by
  induction vs with
  | nil => rfl
  | cons v vs ih => simpa [peek_last_label_value_cons] using ih

theorem is_over_top_level_value_cons (v : Value) (s : Stack) :
    is_over_top_level (.value v :: s) = is_over_top_level s := by
  simp [is_over_top_level, current_frame_value_cons, current_frame_labels_value_cons]

theorem is_over_top_level_label_cons (l : Label) (s : Stack)
    (h : (current_frame s).isSome = true) :
    is_over_top_level (.label l :: s) = false := by
  rcases hc : current_frame s with _ | f
  · rw [hc] at h
    exact absurd h (by simp)
  · simp [is_over_top_level, current_frame_label_cons, hc, current_frame_labels]

theorem is_over_top_level_values_label (vs : List Value) (l : Label) (s : Stack)
    (h : (current_frame s).isSome = true) :
    is_over_top_level (vs.map .value ++ .label l :: s) = false := by
  induction vs with
  | nil => exact is_over_top_level_label_cons l s h
  | cons v vs ih => rw [List.map_cons, List.cons_append, is_over_top_level_value_cons]; exact ih

end Core

/-! Claim theorems. -/

/-- C6 counterexample: executing `Unreachable` does not return a trap
error; the source's `panic!()` aborts by unwinding, so the claim that
`executeStep` returns the error to the caller without panicking is false
at this input. -/
theorem unreachable_panics :
    Core.execute_inst .unreachable 0 sampleState = .panicked := rfl

/-- C6 (amended): executing an unhandled opcode returns
`Err(Panic("<name> not supported yet"))` unmodified to the caller with the
stack left as-is (only the pc advanced), provided the stack is not over
the top level (the final check would otherwise replace the error by
`Ok(End)`); `Unreachable`, by contrast, panics. -/
theorem unsupported_opcode_returns_error_unmodified
    (name : String) (mi : Nat) (st : Core.ExecState)
    (h : Core.is_over_top_level st.stack = false) :
    Core.execute_inst (.other name) mi st
      = .trap (.panicMsg (name ++ " not supported yet"))
          { st with pc := st.pc.inc_inst_index } := by
  simp [Core.execute_inst, Core.check_top_level, h]

/-- Witness for the amended C6 theorem at a concrete unhandled opcode. -/
theorem unsupported_opcode_returns_error_unmodified_witness :
    Core.execute_inst (.other "i64.add") 0 sampleState
      = .trap (.panicMsg ("i64.add" ++ " not supported yet"))
          { sampleState with pc := sampleState.pc.inc_inst_index } :=
  unsupported_opcode_returns_error_unmodified "i64.add" 0 sampleState (by decide)

/-- C7 counterexample: the constant-expression evaluator does not return
the referenced global's value for `GetGlobal`; the source's `GetGlobal`
arm is a bare `panic!()`. -/
theorem eval_const_expr_get_global_panics :
    Core.eval_const_expr [.getGlobal 0] = .getGlobalPanicked := rfl

/-- C7 (amended): the evaluator returns the single value denoted by an
`I32`/`I64`/`F32`/`F64` constant operator (floats decoded from their bit
patterns); `GetGlobal` panics instead of returning the referenced global's
value, and every other operator panics with an "Unsupported init_expr"
message rather than returning an `UnsupportedInitExpr` error value. -/
theorem eval_const_expr_characterization (inst : Instr) (rest : List Instr) :
    (∀ v, inst = .i32Const v → Core.eval_const_expr (inst :: rest) = .ok (.I32 v))
    ∧ (∀ v, inst = .i64Const v → Core.eval_const_expr (inst :: rest) = .ok (.I64 v))
    ∧ (∀ bits, inst = .f32Const bits → Core.eval_const_expr (inst :: rest) = .ok (.F32 bits))
    ∧ (∀ bits, inst = .f64Const bits → Core.eval_const_expr (inst :: rest) = .ok (.F64 bits))
    ∧ (inst.isGetGlobal = true →
        Core.eval_const_expr (inst :: rest) = .getGlobalPanicked)
    ∧ (inst.isConstOperator = false → inst.isGetGlobal = false →
        Core.eval_const_expr (inst :: rest) = .unsupportedPanicked) := by
  refine ⟨?_, ?_, ?_, ?_, ?_, ?_⟩ <;> cases inst <;>
    simp_all [Core.eval_const_expr, Instr.isGetGlobal, Instr.isConstOperator]

/-- Witness for the C7 theorem: `Nop` is neither a constant operator nor
`GetGlobal` and evaluates to the unsupported-operator panic. -/
theorem eval_const_expr_characterization_witness :
    Instr.isConstOperator .nop = false ∧ Instr.isGetGlobal .nop = false
    ∧ Core.eval_const_expr [.nop] = .unsupportedPanicked :=
  ⟨by decide, by decide,
    (eval_const_expr_characterization .nop []).2.2.2.2.2 (by decide) (by decide)⟩

/-- C8: with two `I32` values on top of the stack, `I32.Add` pops the
right operand `b` first and the left operand `a` second, and pushes
`I32 (i32wrap (a + b))`, the two's-complement wraparound of the sum: it
agrees with `a + b` modulo `2 ^ 32` and lies in the `i32` range. -/
theorem i32_add_wraparound (a b : Int) (rest : Core.Stack) (store : Core.Store)
    (pc : Core.ProgramCounter) (mi : Nat)
    (h : Core.is_over_top_level rest = false) :
    Core.execute_inst .i32Add mi
        { store := store, stack := .value (.I32 b) :: .value (.I32 a) :: rest, pc := pc }
      = .ok .next { store := store, stack := .value (.I32 (i32wrap (a + b))) :: rest,
                    pc := pc.inc_inst_index }
    ∧ i32wrap (a + b) % 2 ^ 32 = (a + b) % 2 ^ 32
    ∧ -2 ^ 31 ≤ i32wrap (a + b) ∧ i32wrap (a + b) < 2 ^ 31 := by
  refine ⟨?_, ?_, ?_, ?_⟩
  · simp [Core.execute_inst, Core.int_op, Core.pop_as_i32, Core.pop_value,
      Core.push_value, Core.check_top_level, Core.is_over_top_level_value_cons, h]
  · unfold i32wrap
    omega
  · unfold i32wrap
    omega
  · unfold i32wrap
    omega

/-- Witness for C8 at the overflow input `2147483647 + 1`, which wraps to
`-2147483648`. -/
theorem i32_add_wraparound_witness :
    Core.execute_inst .i32Add 0
        { store := emptyCoreStore
          stack := .value (.I32 1) :: .value (.I32 2147483647) :: sampleState.stack
          pc := { funcAddr := (0, 0), instIndex := 0 } }
      = .ok .next { store := emptyCoreStore
                    stack := .value (.I32 (i32wrap (2147483647 + 1))) :: sampleState.stack
                    pc := { funcAddr := (0, 0), instIndex := 1 } }
    ∧ i32wrap (2147483647 + 1) % 2 ^ 32 = (2147483647 + 1) % 2 ^ 32
    ∧ -2 ^ 31 ≤ i32wrap (2147483647 + 1) ∧ i32wrap (2147483647 + 1) < 2 ^ 31 :=
  i32_add_wraparound 2147483647 1 sampleState.stack emptyCoreStore
    { funcAddr := (0, 0), instIndex := 0 } 0 (by decide)

/-- C10: `BrIf` pops one value and compares it for equality with
`Value::I32(0)` rather than checking it to be an `I32`: with the innermost
label a `Loop`, the branch is taken exactly when the popped value differs
from `I32 0`, so values of other numeric types such as `I64 0` or a zero
`F32` also trigger the branch. -/
theorem br_if_branches_iff_value_ne_i32_zero (v : Value) (l : Nat) (rest : Core.Stack)
    (store : Core.Store) (pc : Core.ProgramCounter) (mi : Nat)
    (hframe : (Core.current_frame rest).isSome = true) :
    Core.execute_inst (.brIf 0) mi
        { store := store, stack := .value v :: .label (.loop l) :: rest, pc := pc }
      = .ok .next { store := store, stack := .label (.loop l) :: rest,
                    pc := if v = .I32 0 then pc.inc_inst_index
                          else pc.inc_inst_index.loop_jump l }
    ∧ (Value.I64 0 ≠ Value.I32 0) ∧ (Value.F32 0 ≠ Value.I32 0) := by
  have hover := Core.is_over_top_level_label_cons (.loop l) rest hframe
  refine ⟨?_, by decide, by decide⟩
  by_cases hv : v = .I32 0
  · simp [Core.execute_inst, Core.pop_value, Core.check_top_level, hover, hv]
  · simp [Core.execute_inst, Core.pop_value, Core.branch, Core.pop_labels,
      Core.peek_last_label, Core.check_top_level, hover, hv]

/-- Witness for C10: the value `I64 0` (not an `I32`) triggers the
branch. -/
theorem br_if_branches_iff_value_ne_i32_zero_witness :
    Core.execute_inst (.brIf 0) 0
        { store := emptyCoreStore
          stack := .value (.I64 0) :: .label (.loop 3) :: sampleState.stack
          pc := { funcAddr := (0, 0), instIndex := 7 } }
      = .ok .next { store := emptyCoreStore
                    stack := .label (.loop 3) :: sampleState.stack
                    pc := if (Value.I64 0) = .I32 0
                          then ({ funcAddr := (0, 0), instIndex := 7 } : Core.ProgramCounter).inc_inst_index
                          else ({ funcAddr := (0, 0), instIndex := 7 } : Core.ProgramCounter).inc_inst_index.loop_jump 3 }
    ∧ (Value.I64 0 ≠ Value.I32 0) ∧ (Value.F32 0 ≠ Value.I32 0) :=
  br_if_branches_iff_value_ne_i32_zero (.I64 0) 3 sampleState.stack emptyCoreStore
    { funcAddr := (0, 0), instIndex := 7 } 0 (by decide)

/-- C9: `Loop` pushes a `Loop` label recording the instruction index just
past the `Loop` opcode (the pc after the pre-increment), and `Br 0`
executed while the innermost label of the current frame is `Loop l` sets
the program counter's instruction index to `l`, re-entering the loop; the
values above the label stay on the stack. -/
theorem br_zero_loop_reentry (vs : List Value) (l : Nat) (rest : Core.Stack)
    (store : Core.Store) (pc0 pc1 : Core.ProgramCounter) (mi : Nat)
    (hframe : (Core.current_frame rest).isSome = true) :
    Core.execute_inst .loop mi { store := store, stack := rest, pc := pc0 }
      = .ok .next { store := store
                    stack := .label (.loop (pc0.instIndex + 1)) :: rest
                    pc := pc0.inc_inst_index }
    ∧ Core.execute_inst (.br 0) mi
        { store := store, stack := vs.map .value ++ .label (.loop l) :: rest, pc := pc1 }
      = .ok .next { store := store
                    stack := vs.map .value ++ .label (.loop l) :: rest
                    pc := pc1.inc_inst_index.loop_jump l } := by
  constructor
  · have hover := Core.is_over_top_level_label_cons (.loop (pc0.instIndex + 1)) rest hframe
    simp [Core.execute_inst, Core.push_label, Core.check_top_level,
      Core.ProgramCounter.inc_inst_index, hover]
  · have hover := Core.is_over_top_level_values_label vs (.loop l) rest hframe
    have hpeek := Core.peek_last_label_values_append vs (.label (.loop l) :: rest)
    simp [Core.execute_inst, Core.branch, Core.pop_labels, Core.check_top_level,
      hover, hpeek, Core.peek_last_label]

/-- Witness for C9 with one value above the loop label. -/
theorem br_zero_loop_reentry_witness :
    Core.execute_inst .loop 0
        { store := emptyCoreStore, stack := sampleState.stack
          pc := { funcAddr := (0, 0), instIndex := 4 } }
      = .ok .next { store := emptyCoreStore
                    stack := .label (.loop 5) :: sampleState.stack
                    pc := { funcAddr := (0, 0), instIndex := 5 } }
    ∧ Core.execute_inst (.br 0) 0
        { store := emptyCoreStore
          stack := [Value.I32 9].map .value ++ .label (.loop 5) :: sampleState.stack
          pc := { funcAddr := (0, 0), instIndex := 8 } }
      = .ok .next { store := emptyCoreStore
                    stack := [Value.I32 9].map .value ++ .label (.loop 5) :: sampleState.stack
                    pc := ({ funcAddr := (0, 0), instIndex := 8 } : Core.ProgramCounter).inc_inst_index.loop_jump 5 } :=
  br_zero_loop_reentry [Value.I32 9] 5 sampleState.stack emptyCoreStore
    { funcAddr := (0, 0), instIndex := 4 } { funcAddr := (0, 0), instIndex := 8 } 0 (by decide)

/-- C5 evaluation at the failing input: executing the `End` of a block
with result values `I32 1` (top) and `I32 2` above the `Block` label
re-pushes the harvested values top-first, leaving them in reversed order
(`I32 2` now on top); the claim's required behavior would leave the stack
segment unchanged as `[I32 1, I32 2]`. -/
theorem end_block_reverses_results :
    Core.execute_inst .end_ 0 endBlockState
      = .ok .next { endBlockState with
          stack := [.value (.I32 2), .value (.I32 1), .label .return_,
                    .activation sampleFrame]
          pc := endBlockState.pc.inc_inst_index } := by
  decide

/-- C4: executing `Br d` pops `d` labels; the result values lying above
the now-innermost label (here `vs`) are preserved across the unwind: for a
`Loop` label the pc then jumps to the loop start, for `Block`/`If` it
scans forward (with depth counter `d + 1`) to the matching `End`, and a
branch whose target is the `Return` label panics. -/
theorem branch_pops_labels_preserves_results
    (d mi : Nat) (st : Core.ExecState) (vs : List Value) (L : Core.Label)
    (rest : Core.Stack)
    (hpop : Core.pop_labels d st.stack = some (vs.map .value ++ .label L :: rest))
    (hframe : (Core.current_frame rest).isSome = true) :
    (∀ l, L = .loop l →
      Core.execute_inst (.br d) mi st
        = .ok .next { store := st.store, stack := vs.map .value ++ .label L :: rest,
                      pc := st.pc.inc_inst_index.loop_jump l })
    ∧ ((L = .block ∨ L = .if_) → ∀ insts j,
        Core.current_func_insts
            { store := st.store, stack := vs.map .value ++ .label L :: rest,
              pc := st.pc.inc_inst_index } = some insts →
        Core.scanEnd insts st.pc.inc_inst_index.instIndex (d + 1) = some j →
        Core.execute_inst (.br d) mi st
          = .ok .next { store := st.store, stack := vs.map .value ++ .label L :: rest,
                        pc := { st.pc.inc_inst_index with instIndex := j } })
    ∧ (L = .return_ → Core.execute_inst (.br d) mi st = .panicked) := by
  have hover := Core.is_over_top_level_values_label vs L rest hframe
  have hpeek : Core.peek_last_label (vs.map .value ++ .label L :: rest) = some L := by
    rw [Core.peek_last_label_values_append]
    rfl
  refine ⟨?_, ?_, ?_⟩
  · intro l hL
    subst hL
    simp [Core.execute_inst, Core.branch, hpop, hpeek, Core.check_top_level, hover,
      Core.ProgramCounter.loop_jump]
  · intro hL insts j hinsts hscan
    simp only [Core.ProgramCounter.inc_inst_index] at hinsts hscan
    rcases hL with hL | hL <;> subst hL <;>
      simp [Core.execute_inst, Core.branch, hpop, hpeek, hinsts, hscan,
        Core.check_top_level, hover, Core.ProgramCounter.inc_inst_index]
  · intro hL
    subst hL
    simp [Core.execute_inst, Core.branch, hpop, hpeek, Core.check_top_level]

/-- Witness for C4: `Br 1` from inside a `Block` nested in a `Loop`:
the `Block` label is popped, the value `I32 7` above the `Loop` label is
preserved, and the pc jumps to the loop start. -/
theorem branch_pops_labels_preserves_results_witness :
    Core.execute_inst (.br 1) 0
        { store := emptyCoreStore
          stack := [.label .block, .value (.I32 7), .label (.loop 2),
                    .label .return_, .activation sampleFrame]
          pc := { funcAddr := (0, 0), instIndex := 6 } }
      = .ok .next { store := emptyCoreStore
                    stack := [Value.I32 7].map .value
                      ++ .label (.loop 2) :: [.label .return_, .activation sampleFrame]
                    pc := ({ funcAddr := (0, 0), instIndex := 6 } : Core.ProgramCounter).inc_inst_index.loop_jump 2 } :=
  (branch_pops_labels_preserves_results 1 0
      { store := emptyCoreStore
        stack := [.label .block, .value (.I32 7), .label (.loop 2),
                  .label .return_, .activation sampleFrame]
        pc := { funcAddr := (0, 0), instIndex := 6 } }
      [Value.I32 7] (.loop 2) [.label .return_, .activation sampleFrame]
      (by decide) (by decide)).1 2 rfl

/-- C1 evaluation at the failing input: loading a module whose start
function traps returns `FailedEntryFunction` through the early `?` before
the rollback match runs, so the appended module instance and the name
binding survive: the store after the error differs from the store before
the call. -/
theorem load_parity_module_start_trap_no_rollback :
    Vm.load_parity_module trapInvoke (some "m") startOnlyModule Vm.Store.new
      = .err (.failedEntryFunction (.trap "start trapped")) afterStartTrapStore
    ∧ afterStartTrapStore ≠ Vm.Store.new
    ∧ afterStartTrapStore.modules.length = 1
    ∧ Vm.lookupName "m" afterStartTrapStore.moduleIndexByName = some 0
    ∧ Vm.Store.new.modules.length = 0
    ∧ Vm.lookupName "m" Vm.Store.new.moduleIndexByName = none := by
  decide

/-- C2: a memory import whose resolution succeeded returns
`IncompatibleImportMemoryType` (leaving the store untouched) exactly when
the resolved memory is incompatible with the requested limits — its
initial is below the requested initial, or a requested maximum faces an
absent actual maximum, or both maxima are present and the actual exceeds
the requested — and otherwise links the resolved global handle into the
local list of the importing module. -/
theorem load_import_memory_incompatible_iff
    (st : Vm.Store) (midx : Nat) (imp : Vm.ImportEntry) (lim : Vm.Limits)
    (h : Nat) (M : Vm.MemoryInstance)
    (hres : Vm.resolve_import_memory st imp = .ok h)
    (hmem : st.mems.get_global h = some M) :
    (Vm.load_import_memory midx imp lim st = .err .incompatibleImportMemoryType st
      ↔ (M.initial < lim.initial ∨ (M.max = none ∧ lim.maximum ≠ none)
          ∨ ∃ f e, M.max = some f ∧ lim.maximum = some e ∧ e < f))
    ∧ (¬ (M.initial < lim.initial ∨ (M.max = none ∧ lim.maximum ≠ none)
          ∨ ∃ f e, M.max = some f ∧ lim.maximum = some e ∧ e < f) →
        Vm.load_import_memory midx imp lim st
          = .ok () { st with mems := st.mems.link h midx }) := by
  by_cases h1 : M.initial < lim.initial
  · constructor
    · simp [Vm.load_import_memory, hres, hmem, h1]
    · intro hn
      exact absurd (Or.inl h1) hn
  · rcases hM : M.max with _ | f <;> rcases hL : lim.maximum with _ | e
    · refine ⟨by simp [Vm.load_import_memory, hres, hmem, h1, hM, hL], fun _ => ?_⟩
      simp [Vm.load_import_memory, hres, hmem, h1, hM, hL]
    · refine ⟨by simp [Vm.load_import_memory, hres, hmem, h1, hM, hL], fun hn => ?_⟩
      exact absurd (Or.inr (Or.inl ⟨rfl, by simp⟩)) hn
    · refine ⟨by simp [Vm.load_import_memory, hres, hmem, h1, hM, hL], fun _ => ?_⟩
      simp [Vm.load_import_memory, hres, hmem, h1, hM, hL]
    · by_cases h2 : f > e
      · refine ⟨?_, fun hn => ?_⟩
        · simp only [Vm.load_import_memory, hres, hmem, hM, hL]
          simp [h1, h2]
        · exact absurd (Or.inr (Or.inr ⟨f, e, rfl, rfl, h2⟩)) hn
      · refine ⟨?_, fun _ => ?_⟩
        · simp only [Vm.load_import_memory, hres, hmem, hM, hL]
          simp [h1, h2]
        · simp [Vm.load_import_memory, hres, hmem, h1, hM, hL, h2]

/-- Witness for C2 at scenario S4: requested `initial=2, max=4` against an
actual memory with `initial=1` fails with `IncompatibleImportMemoryType`
and the store is unchanged. -/
theorem load_import_memory_incompatible_iff_witness :
    Vm.load_import_memory 1 c2Import { initial := 2, maximum := some 4 } c2Store
      = .err .incompatibleImportMemoryType c2Store :=
  (load_import_memory_incompatible_iff c2Store 1 c2Import
      { initial := 2, maximum := some 4 } 0 c2Mem (by decide) (by decide)).1.mpr
    (Or.inl (by decide))

/-! Lemmas for C3 about `Store::load_mems`. -/

namespace Vm

theorem push_mems_pure_globalItems (midx : Nat) (mems : List Limits) (st : Store) :
    (push_mems_pure midx mems st).mems.globalItems
      = st.mems.globalItems
        ++ mems.map (fun l => MemoryInstance.new l.initial l.maximum) := by
  induction mems generalizing st with
  | nil => simp [push_mems_pure]
  | cons l rest ih =>
    simp [push_mems_pure, ih, LinkableCollection.push]

theorem collect_seg_loop_ok_fits (st : Store) (midx addr : Nat)
    (segs : List DataSegment) (trips : List (Nat × Nat × List Nat))
    (hok : collect_seg_loop st midx addr segs = .ok trips) :
    ∀ seg ∈ segs, ∀ v : Int, seg.offset = some (.i32Const v) →
      ∀ m, st.mems.get_global addr = some m →
        intToUsize v + seg.value.length ≤ m.bytes.length := by
  induction segs generalizing trips with
  | nil =>
    intro seg hs
    simp at hs
  | cons s rest ih =>
    intro seg hseg v hv m hm
    rw [collect_seg_loop] at hok
    rcases hso : s.offset with _ | e
    · simp only [hso] at hok
      exact absurd hok (by simp)
    · simp only [hso] at hok
      rcases hev : eval_const_expr st midx e with _ | val
      · simp only [hev] at hok
        exact absurd hok (by simp)
      · simp only [hev] at hok
        cases val with
        | I32 v0 =>
          rcases hg : st.mems.get_global addr with _ | m0
          · simp only [hg] at hok
            exact absurd hok (by simp)
          · simp only [hg] at hok
            by_cases hfit : intToUsize v0 + s.value.length ≤ m0.bytes.length
            · simp only [show m0.validate_region (intToUsize v0) s.value.length = .ok () from by
                  simp [MemoryInstance.validate_region, hfit]] at hok
              rcases hrest : collect_seg_loop st midx addr rest with t1 | e1
              · simp only [hrest] at hok
                rcases List.mem_cons.mp hseg with hs | hs
                · subst hs
                  rw [hso] at hv
                  obtain rfl : e = .i32Const v := Option.some_injective _ hv
                  have hvv : (Value.I32 v) = .I32 v0 := by
                    have hrfl : eval_const_expr st midx (.i32Const v) = some (.I32 v) := rfl
                    rw [hrfl] at hev
                    exact Option.some_injective _ hev
                  obtain rfl : v = v0 := by
                    injection hvv
                  rw [hg] at hm
                  obtain rfl : m0 = m := Option.some_injective _ hm
                  exact hfit
                · exact ih t1 hrest seg hs v hv m hm
              · simp only [hrest] at hok
                exact absurd hok (by simp)
              · simp only [hrest] at hok
                exact absurd hok (by simp)
            · simp only [show m0.validate_region (intToUsize v0) s.value.length
                    = .error .outOfBounds from by
                  simp [MemoryInstance.validate_region, hfit]] at hok
              exact absurd hok (by simp)
        | I64 v0 =>
          exact absurd hok (by simp)
        | F32 b =>
          exact absurd hok (by simp)
        | F64 b =>
          exact absurd hok (by simp)

theorem collect_seg_loop_not_panicked (st : Store) (midx addr : Nat)
    (segs : List DataSegment)
    (hoff : ∀ seg ∈ segs, ∃ v : Int, seg.offset = some (.i32Const v))
    (hh : ∃ m, st.mems.get_global addr = some m) :
    (∃ trips, collect_seg_loop st midx addr segs = .ok trips)
    ∨ collect_seg_loop st midx addr segs = .err (.invalidDataSegments .outOfBounds) := by
  induction segs with
  | nil => exact Or.inl ⟨[], rfl⟩
  | cons s rest ih =>
    obtain ⟨v, hv⟩ := hoff s (by simp)
    obtain ⟨m, hm⟩ := hh
    have heval : eval_const_expr st midx (.i32Const v) = some (.I32 v) := rfl
    simp only [collect_seg_loop, hv, heval, hm]
    by_cases hfit : intToUsize v + s.value.length ≤ m.bytes.length
    · simp only [show m.validate_region (intToUsize v) s.value.length = .ok () from by
          simp [MemoryInstance.validate_region, hfit]]
      rcases ih (fun seg hs => hoff seg (by simp [hs])) with ⟨trips, htr⟩ | herr
      · simp only [htr]
        exact Or.inl ⟨(addr, intToUsize v, s.value) :: trips, rfl⟩
      · simp only [herr]
        exact Or.inr trivial
    · simp only [show m.validate_region (intToUsize v) s.value.length
          = .error .outOfBounds from by
          simp [MemoryInstance.validate_region, hfit]]
      exact Or.inr trivial

theorem collect_data_loop_cases (st : Store) (midx : Nat) (segs : List DataSegment)
    (pairs : List (Nat × Nat))
    (hoff : ∀ seg ∈ segs, ∃ v : Int, seg.offset = some (.i32Const v))
    (hh : ∀ p ∈ pairs, ∃ m, st.mems.get_global p.2 = some m) :
    (∃ trips, collect_data_loop st midx segs pairs = .ok trips)
    ∨ collect_data_loop st midx segs pairs = .err (.invalidDataSegments .outOfBounds) := by
  induction pairs with
  | nil => exact Or.inl ⟨[], rfl⟩
  | cons p rest ih =>
    obtain ⟨i, addr⟩ := p
    have h1 := collect_seg_loop_not_panicked st midx addr
      (segs.filter (fun s => s.index = i))
      (fun seg hs => hoff seg (List.mem_of_mem_filter hs))
      (hh (i, addr) (by simp))
    rcases h1 with ⟨trips, htr⟩ | herr
    · simp only [collect_data_loop, htr]
      rcases ih (fun q hq => hh q (by simp [hq])) with ⟨t2, ht2⟩ | he2
      · simp only [ht2]
        exact Or.inl ⟨trips ++ t2, rfl⟩
      · simp only [he2]
        exact Or.inr trivial
    · simp only [collect_data_loop, herr]
      exact Or.inr trivial

theorem collect_data_loop_ok_fits (st : Store) (midx : Nat) (segs : List DataSegment)
    (pairs : List (Nat × Nat)) (trips : List (Nat × Nat × List Nat))
    (hok : collect_data_loop st midx segs pairs = .ok trips) :
    ∀ p ∈ pairs, ∀ seg ∈ segs, seg.index = p.1 →
      ∀ v : Int, seg.offset = some (.i32Const v) →
        ∀ m, st.mems.get_global p.2 = some m →
          intToUsize v + seg.value.length ≤ m.bytes.length := by
  induction pairs generalizing trips with
  | nil =>
    intro p hp
    simp at hp
  | cons q rest ih =>
    intro p hp seg hseg hidx v hv m hm
    obtain ⟨i, addr⟩ := q
    rw [collect_data_loop] at hok
    rcases hsl : collect_seg_loop st midx addr (segs.filter (fun s => s.index = i))
        with t1 | e1
    · simp only [hsl] at hok
      rcases hdl : collect_data_loop st midx segs rest with t2 | e2
      · rcases List.mem_cons.mp hp with hq | hq
        · subst hq
          exact collect_seg_loop_ok_fits st midx addr _ t1 hsl seg
            (List.mem_filter.mpr ⟨hseg, by simp [hidx]⟩) v hv m hm
        · exact ih t2 hdl p hq seg hseg hidx v hv m hm
      · simp only [hdl] at hok
        exact absurd hok (by simp)
      · simp only [hdl] at hok
        exact absurd hok (by simp)
    · simp only [hsl] at hok
      exact absurd hok (by simp)
    · simp only [hsl] at hok
      exact absurd hok (by simp)

end Vm

/-- C3: when some data segment of the module (targeting an existing memory
of the module, with a constant `I32` offset) does not fit its target
memory, `load_mems` fails with `InvalidDataSegments(OutOfBounds)` and no
byte of any memory instance is modified: the store at the error is exactly
the post-push store, whose memory items are the pre-call ones unchanged
followed by the freshly constructed (all-zero) declared memories — every
region is validated before any write is applied. -/
theorem load_mems_invalid_data_segment_no_partial_writes
    (st : Vm.Store) (pm : Vm.PModule) (midx : Nat) (items : List Nat)
    (hitems : (Vm.push_mems_pure midx pm.memories st).mems.itemsOf midx = some items)
    (hoff : ∀ seg ∈ pm.dataSegs, ∃ v : Int, seg.offset = some (.i32Const v))
    (hhandles : ∀ hdl ∈ items,
        ∃ m, (Vm.push_mems_pure midx pm.memories st).mems.get_global hdl = some m)
    (hbad : ∃ seg ∈ pm.dataSegs, ∃ (i hdl : Nat) (m : Vm.MemoryInstance) (v : Int),
        items[i]? = some hdl ∧ seg.index = i
        ∧ (Vm.push_mems_pure midx pm.memories st).mems.get_global hdl = some m
        ∧ seg.offset = some (.i32Const v)
        ∧ m.bytes.length < Vm.intToUsize v + seg.value.length) :
    Vm.load_mems pm midx st
      = .err (.invalidDataSegments .outOfBounds) (Vm.push_mems_pure midx pm.memories st)
    ∧ (Vm.push_mems_pure midx pm.memories st).mems.globalItems
      = st.mems.globalItems
        ++ pm.memories.map (fun l => Vm.MemoryInstance.new l.initial l.maximum) := by
  obtain ⟨seg, hsegmem, i, hdl, m, v, hih, hidx, hgm, hoffv, hlen⟩ := hbad
  have hinonempty : items ≠ [] := by
    intro hnil
    rw [hnil] at hih
    simp at hih
  have hcond : (pm.memories.isEmpty && st.mems.is_empty midx) = false := by
    rcases hmems : pm.memories with _ | ⟨l, ls⟩
    · have hst1 : Vm.push_mems_pure midx pm.memories st = st := by
        rw [hmems]
        rfl
      rw [hst1] at hitems
      simp [Vm.LinkableCollection.is_empty, hitems, hinonempty]
    · simp
  have hpairs : ∀ p ∈ items.enum,
      ∃ m', (Vm.push_mems_pure midx pm.memories st).mems.get_global p.2 = some m' := by
    intro p hp
    have hpe : items[p.1]? = some p.2 := List.mem_enum_iff_getElem?.mp hp
    exact hhandles p.2 (List.getElem?_mem hpe)
  have hcases := Vm.collect_data_loop_cases (Vm.push_mems_pure midx pm.memories st) midx
    pm.dataSegs items.enum hoff hpairs
  rcases hcases with ⟨trips, hok⟩ | herr
  · exfalso
    have hmem_enum : (i, hdl) ∈ items.enum := List.mk_mem_enum_iff_getElem?.mpr hih
    have := Vm.collect_data_loop_ok_fits (Vm.push_mems_pure midx pm.memories st) midx
      pm.dataSegs items.enum trips hok (i, hdl) hmem_enum seg hsegmem hidx v hoffv m hgm
    omega
  · refine ⟨?_, Vm.push_mems_pure_globalItems midx pm.memories st⟩
    simp [Vm.load_mems, hcond, hitems, herr]

/-- Witness for C3: a three-byte segment at offset 2 does not fit the
four-byte memory of module 0; `load_mems` fails with
`InvalidDataSegments(OutOfBounds)` and the memory items are untouched. -/
theorem load_mems_invalid_data_segment_no_partial_writes_witness :
    Vm.load_mems c3Module 0 c3Store
      = .err (.invalidDataSegments .outOfBounds) (Vm.push_mems_pure 0 c3Module.memories c3Store)
    ∧ (Vm.push_mems_pure 0 c3Module.memories c3Store).mems.globalItems
      = c3Store.mems.globalItems
        ++ c3Module.memories.map (fun l => Vm.MemoryInstance.new l.initial l.maximum) :=
  load_mems_invalid_data_segment_no_partial_writes c3Store c3Module 0 [0]
    (by decide)
    (by
      intro seg hs
      simp only [c3Module, List.mem_singleton] at hs
      subst hs
      exact ⟨2, rfl⟩)
    (by
      intro hdl hmem
      simp only [List.mem_singleton] at hmem
      subst hmem
      exact ⟨c3Mem, by decide⟩)
    ⟨{ index := 0, offset := some (.i32Const 2), value := [9, 9, 9] }, by decide,
      0, 0, c3Mem, 2, by decide, by decide, by decide, by decide, by decide⟩

end Wasminspect
